import Mathlib

/-!
Shallow embedding of `src/pages/index.tsx` from saleor/example-app-menu-manager.

The page manages "menus" against a GraphQL backend.  The parts embedded here:
the form-state operations (`addMenuItem`, `removeMenuItem`), the parent
candidate resolver (`getAvailableParentItems`), submission processing
(`handleSubmit`), and the three top-level action handlers
(`handleCreateMenu`, `handleUpdateMenu`, `handleDeleteMenu`).  Network
mutations are modelled by explicit response values supplied to each handler;
each handler returns the list of mutation calls it issued, the page error
slot, and how often the menu-list re-fetch was invoked.
-/

namespace MenuManager

/-! ### JavaScript-semantics helpers -/

/-- JS `s || fallback` for strings: the empty string is the only falsy string. -/
def jsOrString (s fallback : String) : String :=
  if s = "" then fallback else s

/-- JS `s || undefined` for a string `s`. -/
def jsOrUndefined (s : String) : Option String :=
  if s = "" then none else some s

/-- JS `array.filter((_, index) => f(index))`: keep elements whose position
satisfies `f`. -/
def jsFilterIdx {α : Type} (f : Nat → Bool) (l : List α) : List α :=
  (l.enum.filter fun p => f p.1).map Prod.snd

/-- JS `array.map((item, index) => g(index, item))`. -/
def jsMapIdx {α β : Type} (g : Nat → α → β) (l : List α) : List β :=
  l.enum.map fun p => g p.1 p.2

/-! ### Data model -/

/-- An option of the macaw-ui `Select` component (`SelectOption` in the source). -/
structure SelectOption where
  value : String
  label : String
  deriving DecidableEq, Repr

/-- One draft menu item as held in form state (`MenuItemForm` in the source). -/
structure MenuItemForm where
  name : String
  categoryId : Option SelectOption := none
  collectionId : Option SelectOption := none
  pageId : Option SelectOption := none
  parentId : Option SelectOption := none
  deriving DecidableEq, Repr

/-- The parallel form state of `MenuForm`: the draft list `menuItems` and the
tracked-id list `itemIds`. -/
structure FormState where
  menuItems : List MenuItemForm
  itemIds : List String
  deriving DecidableEq, Repr

/-! ### Form-state operations (lines 132-153 of the source) -/

/-- Source `getAvailableParentItems(currentIndex)`: the drafts at positions strictly
below `currentIndex`, each paired with `itemIds[index] || index.toString()`. -/
def getAvailableParentItems (menuItems : List MenuItemForm) (itemIds : List String)
    (currentIndex : Nat) : List SelectOption :=
  jsMapIdx
    (fun index item =>
      { value := jsOrString (itemIds.getD index "") (Nat.repr index)
        label := item.name })
    (jsFilterIdx (fun index => decide (index < currentIndex)) menuItems)

/-- Source `addMenuItem`: append a blank draft and the temporary id
`` `new-${itemIds.length}` ``. -/
def addMenuItem (s : FormState) : FormState :=
  { menuItems := s.menuItems ++ [{ name := "" }]
    itemIds := s.itemIds ++ ["new-" ++ Nat.repr s.itemIds.length] }

/-- Source `removeMenuItem(index)`: drop position `index` from both parallel lists. -/
def removeMenuItem (s : FormState) (index : Nat) : FormState :=
  { menuItems := jsFilterIdx (fun i => decide (i ≠ index)) s.menuItems
    itemIds := jsFilterIdx (fun i => decide (i ≠ index)) s.itemIds }

/-- The form-state operations claim C4 ranges over. -/
inductive FormOp where
  | add : FormOp
  | remove : Nat → FormOp
  deriving DecidableEq, Repr

def applyOp (s : FormState) : FormOp → FormState
  | .add => addMenuItem s
  | .remove i => removeMenuItem s i

def applyOps (s : FormState) (ops : List FormOp) : FormState :=
  ops.foldl applyOp s

/-! ### Submission processing (`handleSubmit`, lines 155-171) -/

/-- One element of `processedItems` as built by `handleSubmit`. -/
structure ProcessedItem where
  name : String
  category : Option String := none
  collection : Option String := none
  page : Option String := none
  parent : Option String := none
  id : Option String := none
  deriving DecidableEq, Repr

/-- What `onSubmit` receives. -/
structure MenuSubmission where
  name : String
  slug : Option String := none
  items : List ProcessedItem := []
  deriving DecidableEq, Repr

def processItems (menuItems : List MenuItemForm) (itemIds : List String) :
    List ProcessedItem :=
  jsMapIdx
    (fun index item =>
      { name := item.name
        category := item.categoryId.map SelectOption.value
        collection := item.collectionId.map SelectOption.value
        page := item.pageId.map SelectOption.value
        parent := item.parentId.map SelectOption.value
        id := itemIds.get? index })
    menuItems

def handleSubmit (menuName menuSlug : String) (s : FormState) : MenuSubmission :=
  { name := menuName
    slug := jsOrUndefined menuSlug
    items := processItems s.menuItems s.itemIds }

/-! ### Mutation responses and the calls a handler issues -/

/-- A value thrown in JS: either an `Error` carrying a message, or anything
else (`err instanceof Error` fails). -/
inductive JsValue where
  | errObj : String → JsValue
  | nonError : JsValue
  deriving DecidableEq, Repr

/-- The observable outcome of one awaited mutation: the await itself may
reject (`thrown`); otherwise the urql result may carry a transport
`result.error` (a `CombinedError`, an `Error` whose message we record), a
list of server-reported validation errors (each with a nullable message),
and — for `menuItemCreate` — the created item's id. -/
structure MutationResponse where
  thrown : Option JsValue := none
  error : Option String := none
  errors : List (Option String) := []
  itemId : Option String := none
  deriving DecidableEq, Repr

/-- Source `errors.map((e) => e.message).join(", ")` — JS `join` renders a null or
undefined message as the empty string. -/
def joinMessages (msgs : List (Option String)) : String :=
  String.intercalate ", " (msgs.map fun m => m.getD "")

/-- Source `errors.map((error) => error.message || "Unknown error").join(", ")`. -/
def joinMessagesOrUnknown (msgs : List (Option String)) : String :=
  String.intercalate ", " (msgs.map fun m => jsOrString (m.getD "") "Unknown error")

/-- The `if (result.error) throw result.error;` /
`if (result.data?…?.errors?.length) throw new Error(join…)` pattern every
handler applies to a mutation result: the thrown value, if any. -/
def checkResponse (join : List (Option String) → String) (r : MutationResponse) :
    Option JsValue :=
  match r.thrown with
  | some v => some v
  | none =>
    match r.error with
    | some m => some (JsValue.errObj m)
    | none => if r.errors.isEmpty then none else some (JsValue.errObj (join r.errors))

/-- A mutation succeeded: the await returned, no transport error, no
server-reported validation errors. -/
def respOk (r : MutationResponse) : Prop :=
  r.thrown = none ∧ r.error = none ∧ r.errors = []

instance (r : MutationResponse) : Decidable (respOk r) := by
  unfold respOk; infer_instance

/-- Input of the `menuItemCreate` mutation as issued by `handleUpdateMenu`. -/
structure MenuItemCreateInput where
  menu : String
  name : String
  category : Option String := none
  collection : Option String := none
  page : Option String := none
  parent : Option String := none
  deriving DecidableEq, Repr

/-- One item of the `menuCreate` input: only name/category/collection/page. -/
structure MenuCreateItemInput where
  name : String
  category : Option String := none
  collection : Option String := none
  page : Option String := none
  deriving DecidableEq, Repr

/-- A mutation call as issued to the backend. -/
inductive Call where
  | menuCreate (name : String) (slug : Option String) (items : List MenuCreateItemInput)
  | menuUpdate (id : String) (name : String) (slug : Option String)
  | menuDelete (id : String)
  | menuItemDelete (id : String)
  | menuItemCreate (input : MenuItemCreateInput)
  deriving DecidableEq, Repr

/-- What a top-level handler run leaves behind: the calls it issued in order,
the page error slot (`setError`), and how often `refetchMenus()` ran. -/
structure RunResult where
  calls : List Call
  pageError : Option String
  refetchCount : Nat
  deriving DecidableEq, Repr

/-- Source `err instanceof Error ? err.message : fallback`. -/
def caughtMessage (fallback : String) : JsValue → String
  | .errObj m => m
  | .nonError => fallback

/-! ### `handleCreateMenu` (lines 275-307) -/

/-- The `items` of the `menuCreate` input: id and parent dropped. -/
def createMenuInputItems (items : List ProcessedItem) : List MenuCreateItemInput :=
  items.map fun it =>
    { name := it.name, category := it.category, collection := it.collection
      page := it.page }

def handleCreateMenu (menuData : MenuSubmission) (resp : MutationResponse) : RunResult :=
  let call := Call.menuCreate menuData.name menuData.slug (createMenuInputItems menuData.items)
  match checkResponse joinMessages resp with
  | some v =>
    { calls := [call], pageError := some (caughtMessage "Failed to create menu" v)
      refetchCount := 0 }
  | none => { calls := [call], pageError := none, refetchCount := 1 }

/-! ### `handleDeleteMenu` (lines 406-425) -/

def handleDeleteMenu (id : String) (resp : MutationResponse) : RunResult :=
  let call := Call.menuDelete id
  match checkResponse joinMessages resp with
  | some v =>
    { calls := [call], pageError := some (caughtMessage "Failed to delete menu" v)
      refetchCount := 0 }
  | none => { calls := [call], pageError := none, refetchCount := 1 }

/-! ### `handleUpdateMenu` (lines 309-404) -/

/-- The delete phase: one `menuItemDelete` per existing item id, in order,
stopping at the first failure.  `k` is the position of the next response to
consume.  Returns the issued calls and the thrown value, if any. -/
def deletePhase (resp : Nat → MutationResponse) :
    List String → Nat → List Call × Option JsValue
  | [], _ => ([], none)
  | id :: rest, k =>
    let call := Call.menuItemDelete id
    match checkResponse joinMessagesOrUnknown (resp k) with
    | some v => ([call], some v)
    | none =>
      let r := deletePhase resp rest (k + 1)
      (call :: r.1, r.2)

/-- Source `createdItemIds.get(key)` for the running `Map` (keys are the submitted
items' `id` fields, which may be `undefined`). -/
def mapGet (m : List (Option String × String)) (key : Option String) : Option String :=
  (m.find? fun e => decide (e.1 = key)).map Prod.snd

/-- Source `createdItemIds.set(key, value)`: replace the value under an existing key,
else append the binding. -/
def mapSet (m : List (Option String × String)) (key : Option String) (v : String) :
    List (Option String × String) :=
  if m.any fun e => decide (e.1 = key) then
    m.map fun e => if e.1 = key then (key, v) else e
  else m ++ [(key, v)]

/-- Source `item.parent ? createdItemIds.get(item.parent) : undefined` — an absent or
empty parent reference is falsy, and a lookup miss yields `undefined`. -/
def resolveParent (m : List (Option String × String)) (parent : Option String) :
    Option String :=
  match parent with
  | some p => if p = "" then none else mapGet m (some p)
  | none => none

/-- Source `if (createResult.data?.menuItemCreate?.menuItem?.id) {
createdItemIds.set(item.id, …); }`: record the created item's (truthy)
server id under the submitted item's temporary id. -/
def recordCreatedId (m : List (Option String × String)) (it : ProcessedItem)
    (r : MutationResponse) : List (Option String × String) :=
  match r.itemId with
  | some sid => if sid = "" then m else mapSet m it.id sid
  | none => m

/-- The recreate phase: one `menuItemCreate` per submitted item, in order,
resolving parents through the running map `m`, recording a returned (truthy)
item id under the item's temporary id, stopping at the first failure. -/
def createPhase (menuId : String) (resp : Nat → MutationResponse) :
    List ProcessedItem → Nat → List (Option String × String) →
      List Call × Option JsValue
  | [], _, _ => ([], none)
  | it :: rest, k, m =>
    let call := Call.menuItemCreate
      { menu := menuId, name := it.name, category := it.category
        collection := it.collection, page := it.page
        parent := resolveParent m it.parent }
    match checkResponse joinMessagesOrUnknown (resp k) with
    | some v => ([call], some v)
    | none =>
      let r := createPhase menuId resp rest (k + 1) (recordCreatedId m it (resp k))
      (call :: r.1, r.2)

def handleUpdateMenu (menuId : String) (existingItemIds : List String)
    (menuData : MenuSubmission) (updateResp : MutationResponse)
    (deleteResp createResp : Nat → MutationResponse) : RunResult :=
  let updateCall := Call.menuUpdate menuId menuData.name menuData.slug
  match checkResponse joinMessagesOrUnknown updateResp with
  | some v =>
    { calls := [updateCall]
      pageError := some (caughtMessage "Failed to update menu" v)
      refetchCount := 0 }
  | none =>
    let dr := deletePhase deleteResp existingItemIds 0
    match dr.2 with
    | some v =>
      { calls := updateCall :: dr.1
        pageError := some (caughtMessage "Failed to update menu" v)
        refetchCount := 0 }
    | none =>
      let cr := createPhase menuId createResp menuData.items 0 []
      match cr.2 with
      | some v =>
        { calls := updateCall :: dr.1 ++ cr.1
          pageError := some (caughtMessage "Failed to update menu" v)
          refetchCount := 0 }
      | none =>
        { calls := updateCall :: dr.1 ++ cr.1
          pageError := none
          refetchCount := 1 }

/-! ### Derived notions used by the statements -/

/-- A whole `handleUpdateMenu` run succeeds: the `menuUpdate` call, every
`menuItemDelete` and every `menuItemCreate` it would issue succeed. -/
def updateSuccess (existingItemIds : List String) (menuData : MenuSubmission)
    (updateResp : MutationResponse) (deleteResp createResp : Nat → MutationResponse) :
    Prop :=
  respOk updateResp ∧ (∀ j, j < existingItemIds.length → respOk (deleteResp j)) ∧
    ∀ j, j < menuData.items.length → respOk (createResp j)

instance (ids : List String) (md : MenuSubmission) (ur : MutationResponse)
    (dr cr : Nat → MutationResponse) : Decidable (updateSuccess ids md ur dr cr) := by
  unfold updateSuccess; infer_instance

/-- The first thrown value of a `handleUpdateMenu` run, phase by phase. -/
def updateFirstError (menuId : String) (existingItemIds : List String)
    (menuData : MenuSubmission) (updateResp : MutationResponse)
    (deleteResp createResp : Nat → MutationResponse) : Option JsValue :=
  match checkResponse joinMessagesOrUnknown updateResp with
  | some v => some v
  | none =>
    match (deletePhase deleteResp existingItemIds 0).2 with
    | some v => some v
    | none => (createPhase menuId createResp menuData.items 0 []).2

/-- The decimal digits of `n`, most significant first (each `< 10`). -/
def decNats (n : Nat) : List Nat :=
  if n < 10 then [n] else decNats (n / 10) ++ [n % 10]
termination_by n
decreasing_by exact Nat.div_lt_self (by omega) (by omega)

/-- The invariant behind claim C4's amended form: the tracked ids are
pairwise distinct and none of them collides with a temporary id the form
could still assign. -/
def idsOk (ids : List String) : Prop :=
  ids.Nodup ∧ ∀ s ∈ ids, ∀ n : Nat, ids.length ≤ n → s ≠ "new-" ++ Nat.repr n

/-! ## Lemmas about the index-aware list helpers -/

theorem jsFilterIdx_nil {α : Type} (f : Nat → Bool) :
    jsFilterIdx f ([] : List α) = [] := rfl

theorem jsFilterIdx_cons {α : Type} (f : Nat → Bool) (a : α) (l : List α) :
    jsFilterIdx f (a :: l) =
      (if f 0 then [a] else []) ++ jsFilterIdx (fun j => f (j + 1)) l := by
  unfold jsFilterIdx List.enum
  rw [List.enumFrom_cons' 0 a l, List.filter_cons, List.filter_map]
  by_cases h : f 0 <;>
    simp [h, Function.comp_def, Prod.map_fst, List.map_map]

theorem jsMapIdx_length {α β : Type} (g : Nat → α → β) (l : List α) :
    (jsMapIdx g l).length = l.length := by
  simp [jsMapIdx]

theorem jsMapIdx_getElem? {α β : Type} (g : Nat → α → β) (l : List α) (j : Nat) :
    (jsMapIdx g l)[j]? = l[j]?.map (g j) := by
  simp [jsMapIdx, List.getElem?_map, List.getElem?_enum]
  cases l[j]? <;> rfl

theorem jsFilterIdx_eq_nil_of_false {α : Type} (f : Nat → Bool) (l : List α)
    (hf : ∀ j, f j = false) : jsFilterIdx f l = [] := by
  induction l generalizing f with
  | nil => rfl
  | cons a t ih =>
    rw [jsFilterIdx_cons, hf 0, ih (fun j => f (j + 1)) (fun j => hf (j + 1))]
    simp

theorem jsFilterIdx_eq_self_of_true {α : Type} (f : Nat → Bool) (l : List α)
    (hf : ∀ j, f j = true) : jsFilterIdx f l = l := by
  induction l generalizing f with
  | nil => rfl
  | cons a t ih =>
    rw [jsFilterIdx_cons, hf 0, ih (fun j => f (j + 1)) (fun j => hf (j + 1))]
    simp

theorem filterIdxLt_eq_take {α : Type} (l : List α) (i : Nat) :
    jsFilterIdx (fun j => decide (j < i)) l = l.take i := by
  induction l generalizing i with
  | nil => simp [jsFilterIdx_nil]
  | cons a t ih =>
    cases i with
    | zero =>
      rw [List.take_zero]
      apply jsFilterIdx_eq_nil_of_false
      intro j; simp
    | succ k =>
      rw [jsFilterIdx_cons]
      have hpred : (fun j => decide (j + 1 < k + 1)) = fun j => decide (j < k) := by
        funext j; simp
      have h0 : decide (0 < k + 1) = true := by simp
      rw [hpred, h0, ih k, List.take_succ_cons]
      simp

theorem filterIdxNe_eq_eraseIdx {α : Type} (l : List α) (i : Nat) :
    jsFilterIdx (fun j => decide (j ≠ i)) l = l.eraseIdx i := by
  induction l generalizing i with
  | nil => rfl
  | cons a t ih =>
    cases i with
    | zero =>
      rw [jsFilterIdx_cons]
      have hpred : (fun j => decide (j + 1 ≠ 0)) = fun _ => true := by
        funext j; simp
      rw [hpred, jsFilterIdx_eq_self_of_true _ _ (fun _ => rfl)]
      simp [List.eraseIdx]
    | succ k =>
      rw [jsFilterIdx_cons]
      have hpred : (fun j => decide (j + 1 ≠ k + 1)) = fun j => decide (j ≠ k) := by
        funext j; simp
      rw [hpred, ih k]
      simp [List.eraseIdx]

theorem zip_eraseIdx {α β : Type} :
    ∀ (l₁ : List α) (l₂ : List β) (i : Nat), l₁.length = l₂.length →
      (l₁.eraseIdx i).zip (l₂.eraseIdx i) = (l₁.zip l₂).eraseIdx i := by
  intro l₁
  induction l₁ with
  | nil =>
    intro l₂ i h
    have : l₂ = [] := List.eq_nil_of_length_eq_zero h.symm
    simp [this, List.eraseIdx]
  | cons a t ih =>
    intro l₂ i h
    cases l₂ with
    | nil => simp at h
    | cons b s =>
      cases i with
      | zero => simp [List.eraseIdx]; rfl
      | succ k =>
        simp only [List.eraseIdx, List.zip_cons_cons]
        rw [ih s k (by simpa using h)]
        rfl

/-! ## C3: the parent-candidate resolver -/

theorem getAvailableParentItems_eq_mapIdx_take (drafts : List MenuItemForm)
    (ids : List String) (i : Nat) :
    getAvailableParentItems drafts ids i =
      jsMapIdx
        (fun index item =>
          { value := jsOrString (ids.getD index "") (Nat.repr index)
            label := item.name })
        (drafts.take i) := by
  unfold getAvailableParentItems
  rw [filterIdxLt_eq_take]

/-- C3: for every draft list, tracked-id list and index `i`, the parent
candidate resolver returns exactly the drafts at indices `[0, i)`, in order,
as (id, label) pairs: the label is the draft's name, the id is the tracked id
at the same position when one is present (and non-empty, the only ids the
form ever tracks), else the position rendered as a decimal string; an empty
draft list yields the empty result for every `i`. -/
theorem getAvailableParentItems_spec (drafts : List MenuItemForm)
    (ids : List String) (i : Nat) :
    (getAvailableParentItems drafts ids i).length = min i drafts.length ∧
    (∀ j d s, j < i → drafts[j]? = some d → ids[j]? = some s → s ≠ "" →
      (getAvailableParentItems drafts ids i)[j]? = some { value := s, label := d.name }) ∧
    (∀ j d, j < i → drafts[j]? = some d → ids[j]? = none →
      (getAvailableParentItems drafts ids i)[j]? =
        some { value := Nat.repr j, label := d.name }) ∧
    (drafts = [] → getAvailableParentItems drafts ids i = []) := by
  rw [getAvailableParentItems_eq_mapIdx_take]
  refine ⟨?_, ?_, ?_, ?_⟩
  · rw [jsMapIdx_length, List.length_take]
  · intro j d s hj hd hs hne
    rw [jsMapIdx_getElem?, List.getElem?_take_of_lt hj, hd]
    simp only [Option.map_some']
    rw [List.getD_eq_getElem?_getD, hs]
    simp [jsOrString, hne]
  · intro j d hj hd hs
    rw [jsMapIdx_getElem?, List.getElem?_take_of_lt hj, hd]
    simp only [Option.map_some']
    rw [List.getD_eq_getElem?_getD, hs]
    simp [jsOrString]
  · intro h
    subst h
    simp [jsMapIdx]

/-! ## C7: removing a draft keeps the parallel lists aligned -/

/-- C7: when the two parallel lists have the same length, `removeMenuItem i`
removes position `i` from both, the results again have the same length, and
every remaining draft is still paired with its original tracked id. -/
theorem removeMenuItem_aligned (s : FormState) (i : Nat)
    (h : s.menuItems.length = s.itemIds.length) :
    (removeMenuItem s i).menuItems = s.menuItems.eraseIdx i ∧
    (removeMenuItem s i).itemIds = s.itemIds.eraseIdx i ∧
    (removeMenuItem s i).menuItems.length = (removeMenuItem s i).itemIds.length ∧
    (removeMenuItem s i).menuItems.zip (removeMenuItem s i).itemIds =
      (s.menuItems.zip s.itemIds).eraseIdx i := by
  have h1 : (removeMenuItem s i).menuItems = s.menuItems.eraseIdx i :=
    filterIdxNe_eq_eraseIdx s.menuItems i
  have h2 : (removeMenuItem s i).itemIds = s.itemIds.eraseIdx i :=
    filterIdxNe_eq_eraseIdx s.itemIds i
  refine ⟨h1, h2, ?_, ?_⟩
  · rw [h1, h2, List.length_eraseIdx, List.length_eraseIdx, h]
  · rw [h1, h2, zip_eraseIdx s.menuItems s.itemIds i h]

theorem removeMenuItem_aligned_witness :
    (removeMenuItem ⟨[{ name := "a" }, { name := "b" }], ["x", "y"]⟩ 0).menuItems =
        [{ name := "a" }, { name := "b" }].eraseIdx 0 ∧
    (removeMenuItem ⟨[{ name := "a" }, { name := "b" }], ["x", "y"]⟩ 0).itemIds =
        ["x", "y"].eraseIdx 0 ∧
    (removeMenuItem ⟨[{ name := "a" }, { name := "b" }], ["x", "y"]⟩ 0).menuItems.length =
        (removeMenuItem ⟨[{ name := "a" }, { name := "b" }], ["x", "y"]⟩ 0).itemIds.length ∧
    (removeMenuItem ⟨[{ name := "a" }, { name := "b" }], ["x", "y"]⟩ 0).menuItems.zip
        (removeMenuItem ⟨[{ name := "a" }, { name := "b" }], ["x", "y"]⟩ 0).itemIds =
      ([{ name := "a" }, { name := "b" }].zip ["x", "y"]).eraseIdx 0 :=
  removeMenuItem_aligned ⟨[{ name := "a" }, { name := "b" }], ["x", "y"]⟩ 0 rfl

/-! ## Decimal rendering: `Nat.repr` is injective -/

theorem decNats_lt_ten (n : Nat) : ∀ d ∈ decNats n, d < 10 := by
  induction n using Nat.strong_induction_on with
  | _ n ih =>
    intro d hd
    rw [decNats] at hd
    by_cases h : n < 10
    · rw [if_pos h] at hd
      simp at hd
      omega
    · rw [if_neg h] at hd
      rcases List.mem_append.mp hd with h1 | h2
      · exact ih (n / 10) (Nat.div_lt_self (by omega) (by omega)) d h1
      · simp at h2
        omega

theorem foldl_decNats (n : Nat) :
    (decNats n).foldl (fun a d => a * 10 + d) 0 = n := by
  induction n using Nat.strong_induction_on with
  | _ n ih =>
    rw [decNats]
    by_cases h : n < 10
    · rw [if_pos h]
      simp
    · rw [if_neg h, List.foldl_append]
      rw [ih (n / 10) (Nat.div_lt_self (by omega) (by omega))]
      show n / 10 * 10 + n % 10 = n
      omega

theorem decNats_inj {m n : Nat} (h : decNats m = decNats n) : m = n := by
  have hm := foldl_decNats m
  rw [h, foldl_decNats n] at hm
  omega

theorem digitChar_inj_lt :
    ∀ a, a < 10 → ∀ b, b < 10 → Nat.digitChar a = Nat.digitChar b → a = b := by decide

theorem map_digitChar_inj :
    ∀ l₁ l₂ : List Nat, (∀ x ∈ l₁, x < 10) → (∀ x ∈ l₂, x < 10) →
      l₁.map Nat.digitChar = l₂.map Nat.digitChar → l₁ = l₂ := by
  intro l₁
  induction l₁ with
  | nil =>
    intro l₂ _ _ h
    cases l₂ with
    | nil => rfl
    | cons b s => simp at h
  | cons a t ih =>
    intro l₂ h1 h2 h
    cases l₂ with
    | nil => simp at h
    | cons b s =>
      simp only [List.map_cons, List.cons.injEq] at h
      have hab : a = b := digitChar_inj_lt a (h1 a (by simp)) b (h2 b (by simp)) h.1
      rw [hab, ih s (fun x hx => h1 x (by simp [hx])) (fun x hx => h2 x (by simp [hx])) h.2]

theorem toDigitsCore_eq_decNats (fuel : Nat) :
    ∀ (n : Nat) (ds : List Char), n < fuel →
      Nat.toDigitsCore 10 fuel n ds = (decNats n).map Nat.digitChar ++ ds := by
  induction fuel with
  | zero =>
    intro n ds h
    omega
  | succ f ih =>
    intro n ds h
    by_cases h10 : n / 10 = 0
    · have hn : n < 10 := by omega
      simp only [Nat.toDigitsCore, h10, if_pos]
      rw [decNats, if_pos hn]
      simp [Nat.mod_eq_of_lt hn]
    · simp only [Nat.toDigitsCore, h10, if_neg, if_false]
      rw [decNats, if_neg (by omega : ¬ n < 10)]
      rw [ih (n / 10) _ (by omega)]
      simp

theorem repr_eq_decNats (n : Nat) :
    Nat.repr n = ((decNats n).map Nat.digitChar).asString := by
  show (Nat.toDigits 10 n).asString = _
  rw [Nat.toDigits, toDigitsCore_eq_decNats (n + 1) n [] (Nat.lt_succ_self n)]
  simp

theorem natRepr_inj {m n : Nat} (h : Nat.repr m = Nat.repr n) : m = n := by
  rw [repr_eq_decNats, repr_eq_decNats] at h
  have hdata : (decNats m).map Nat.digitChar = (decNats n).map Nat.digitChar := by
    have := congrArg String.data h
    simpa [List.asString] using this
  exact decNats_inj (map_digitChar_inj _ _ (decNats_lt_ten m) (decNats_lt_ten n) hdata)

theorem tempId_inj {m n : Nat} (h : "new-" ++ Nat.repr m = "new-" ++ Nat.repr n) :
    m = n := by
  have hd := congrArg String.data h
  rw [String.data_append, String.data_append] at hd
  exact natRepr_inj (String.ext (List.append_cancel_left hd))

/-! ## C4: distinctness of tracked temporary ids -/

theorem idsOk_append (ids : List String) (h : idsOk ids) :
    idsOk (ids ++ ["new-" ++ Nat.repr ids.length]) := by
  obtain ⟨hnd, hfresh⟩ := h
  constructor
  · rw [List.nodup_append]
    refine ⟨hnd, List.nodup_singleton _, ?_⟩
    intro s hs hmem
    simp only [List.mem_singleton] at hmem
    exact hfresh s hs ids.length (Nat.le_refl _) hmem
  · intro s hs n hn
    rw [List.length_append] at hn
    rcases List.mem_append.mp hs with h1 | h2
    · exact hfresh s h1 n (by simp at hn; omega)
    · simp only [List.mem_singleton] at h2
      subst h2
      intro heq
      have := tempId_inj heq
      simp at hn
      omega

theorem applyOps_addOnly_idsOk (ops : List FormOp) :
    ∀ s : FormState, (∀ op ∈ ops, op = FormOp.add) → idsOk s.itemIds →
      idsOk (applyOps s ops).itemIds := by
  induction ops with
  | nil =>
    intro s _ h
    exact h
  | cons op rest ih =>
    intro s hops h
    have hop : op = FormOp.add := hops op (by simp)
    subst hop
    show idsOk (applyOps (addMenuItem s) rest).itemIds
    exact ih (addMenuItem s) (fun o ho => hops o (by simp [ho])) (idsOk_append _ h)

/-- C4 counterexample: starting from the empty form, the operation sequence
append, append, remove 0, append leaves the tracked-id list with a duplicate
(`["new-1", "new-1"]`), so the ids are not pairwise distinct. -/
theorem itemIds_duplicate_after_remove :
    ¬ (applyOps ⟨[], []⟩
        [FormOp.add, FormOp.add, FormOp.remove 0, FormOp.add]).itemIds.Nodup := by
  decide

/-- C4 amended: appending assigns the temporary id `new-<n>` with `n` the
current length of the tracked-id list, and for every sequence of append
operations only (no removals), starting from pairwise-distinct ids none of
which is of the form `new-<n>`, the tracked ids remain pairwise distinct.
(With removals interleaved the ids can collide, see the counterexample.) -/
theorem addOnly_itemIds_nodup (s : FormState) (ops : List FormOp)
    (hops : ∀ op ∈ ops, op = FormOp.add)
    (hnd : s.itemIds.Nodup)
    (hfresh : ∀ t ∈ s.itemIds, ∀ n : Nat, t ≠ "new-" ++ Nat.repr n) :
    (addMenuItem s).itemIds = s.itemIds ++ ["new-" ++ Nat.repr s.itemIds.length] ∧
    (applyOps s ops).itemIds.Nodup := by
  refine ⟨rfl, ?_⟩
  exact (applyOps_addOnly_idsOk ops s hops ⟨hnd, fun t ht n _ => hfresh t ht n⟩).1

theorem addOnly_itemIds_nodup_witness :
    (addMenuItem ⟨[], []⟩).itemIds =
        ([] : List String) ++ ["new-" ++ Nat.repr ([] : List String).length] ∧
    (applyOps ⟨[], []⟩ [FormOp.add, FormOp.add, FormOp.add]).itemIds.Nodup :=
  addOnly_itemIds_nodup ⟨[], []⟩ [FormOp.add, FormOp.add, FormOp.add]
    (by decide) (by decide) (by simp)

/-! ## Lemmas about the mutation machinery -/

theorem checkResponse_eq_none_iff (join : List (Option String) → String)
    (r : MutationResponse) : checkResponse join r = none ↔ respOk r := by
  rcases r with ⟨th, er, es, iid⟩
  cases th <;> cases er <;> cases es <;> simp [checkResponse, respOk]

theorem deletePhase_ok (ids : List String) :
    ∀ (resp : Nat → MutationResponse) (k : Nat),
      (∀ j, j < ids.length → respOk (resp (k + j))) →
      deletePhase resp ids k = (ids.map Call.menuItemDelete, none) := by
  induction ids with
  | nil =>
    intro resp k _
    rfl
  | cons a t ih =>
    intro resp k h
    have h0 : respOk (resp k) := by
      have := h 0 (by simp)
      simpa using this
    have hrest : ∀ j, j < t.length → respOk (resp (k + 1 + j)) := by
      intro j hj
      have h2 := h (j + 1) (by simp only [List.length_cons]; omega)
      have he : k + (j + 1) = k + 1 + j := by omega
      rwa [he] at h2
    have hc : checkResponse joinMessagesOrUnknown (resp k) = none :=
      (checkResponse_eq_none_iff _ _).mpr h0
    simp [deletePhase, hc, ih resp (k + 1) hrest]

theorem deletePhase_none_iff (ids : List String) :
    ∀ (resp : Nat → MutationResponse) (k : Nat),
      (deletePhase resp ids k).2 = none ↔
        ∀ j, j < ids.length → respOk (resp (k + j)) := by
  induction ids with
  | nil =>
    intro resp k
    simp [deletePhase]
  | cons a t ih =>
    intro resp k
    cases hc : checkResponse joinMessagesOrUnknown (resp k) with
    | some v =>
      refine iff_of_false (by simp [deletePhase, hc]) ?_
      intro hall
      have h0 : respOk (resp k) := by
        have := hall 0 (by simp)
        simpa using this
      rw [(checkResponse_eq_none_iff _ _).mpr h0] at hc
      cases hc
    | none =>
      have h0 : respOk (resp k) := (checkResponse_eq_none_iff _ _).mp hc
      simp only [deletePhase, hc]
      rw [ih resp (k + 1)]
      constructor
      · intro hall j hj
        cases j with
        | zero => simpa using h0
        | succ i =>
          have := hall i (by simp only [List.length_cons] at hj; omega)
          have he : k + 1 + i = k + (i + 1) := by omega
          rwa [he] at this
      · intro hall j hj
        have := hall (j + 1) (by simp only [List.length_cons]; omega)
        have he : k + (j + 1) = k + 1 + j := by omega
        rwa [he] at this

theorem deletePhase_fail (ids : List String) :
    ∀ (resp : Nat → MutationResponse) (k fk : Nat), fk < ids.length →
      (∀ j, j < fk → respOk (resp (k + j))) → ¬ respOk (resp (k + fk)) →
      deletePhase resp ids k =
        ((ids.take (fk + 1)).map Call.menuItemDelete,
          checkResponse joinMessagesOrUnknown (resp (k + fk))) := by
  induction ids with
  | nil =>
    intro resp k fk hk
    simp at hk
  | cons a t ih =>
    intro resp k fk hk hbefore hfail
    cases fk with
    | zero =>
      cases hc : checkResponse joinMessagesOrUnknown (resp k) with
      | none => exact absurd ((checkResponse_eq_none_iff _ _).mp (by simpa using hc)) (by simpa using hfail)
      | some v =>
        have hc' : checkResponse joinMessagesOrUnknown (resp (k + 0)) = some v := by
          simpa using hc
        simp [deletePhase, hc, hc']
    | succ j =>
      have h0 : respOk (resp k) := by
        have := hbefore 0 (by omega)
        simpa using this
      have hc : checkResponse joinMessagesOrUnknown (resp k) = none :=
        (checkResponse_eq_none_iff _ _).mpr h0
      have hbefore' : ∀ i, i < j → respOk (resp (k + 1 + i)) := by
        intro i hi
        have := hbefore (i + 1) (by omega)
        have he : k + (i + 1) = k + 1 + i := by omega
        rwa [he] at this
      have hfail' : ¬ respOk (resp (k + 1 + j)) := by
        have he : k + 1 + j = k + (j + 1) := by omega
        rwa [he]
      have := ih resp (k + 1) j (by simp only [List.length_cons] at hk; omega) hbefore' hfail'
      have he2 : k + 1 + j = k + (j + 1) := by omega
      rw [he2] at this
      simp [deletePhase, hc, this, List.take_succ_cons]

theorem createPhase_cons_ok (menuId : String) (resp : Nat → MutationResponse)
    (it : ProcessedItem) (rest : List ProcessedItem) (k : Nat)
    (m : List (Option String × String)) (h : respOk (resp k)) :
    createPhase menuId resp (it :: rest) k m =
      (Call.menuItemCreate
          { menu := menuId, name := it.name, category := it.category
            collection := it.collection, page := it.page
            parent := resolveParent m it.parent } ::
          (createPhase menuId resp rest (k + 1) (recordCreatedId m it (resp k))).1,
        (createPhase menuId resp rest (k + 1) (recordCreatedId m it (resp k))).2) := by
  have hc : checkResponse joinMessagesOrUnknown (resp k) = none :=
    (checkResponse_eq_none_iff _ _).mpr h
  simp [createPhase, hc]

theorem createPhase_first_call (menuId : String) (resp : Nat → MutationResponse)
    (it : ProcessedItem) (rest : List ProcessedItem) (k : Nat)
    (m : List (Option String × String)) :
    (createPhase menuId resp (it :: rest) k m).1[0]? =
      some (Call.menuItemCreate
        { menu := menuId, name := it.name, category := it.category
          collection := it.collection, page := it.page
          parent := resolveParent m it.parent }) := by
  cases hc : checkResponse joinMessagesOrUnknown (resp k) <;>
    simp [createPhase, hc]

theorem createPhase_none_iff (items : List ProcessedItem) :
    ∀ (menuId : String) (resp : Nat → MutationResponse) (k : Nat)
      (m : List (Option String × String)),
      (createPhase menuId resp items k m).2 = none ↔
        ∀ j, j < items.length → respOk (resp (k + j)) := by
  induction items with
  | nil =>
    intro menuId resp k m
    simp [createPhase]
  | cons it rest ih =>
    intro menuId resp k m
    cases hc : checkResponse joinMessagesOrUnknown (resp k) with
    | some v =>
      refine iff_of_false (by simp [createPhase, hc]) ?_
      intro hall
      have h0 : respOk (resp k) := by
        have := hall 0 (by simp)
        simpa using this
      rw [(checkResponse_eq_none_iff _ _).mpr h0] at hc
      cases hc
    | none =>
      have h0 : respOk (resp k) := (checkResponse_eq_none_iff _ _).mp hc
      simp only [createPhase, hc]
      rw [ih menuId resp (k + 1) (recordCreatedId m it (resp k))]
      constructor
      · intro hall j hj
        cases j with
        | zero => simpa using h0
        | succ i =>
          have := hall i (by simp only [List.length_cons] at hj; omega)
          have he : k + 1 + i = k + (i + 1) := by omega
          rwa [he] at this
      · intro hall j hj
        have := hall (j + 1) (by simp only [List.length_cons]; omega)
        have he : k + (j + 1) = k + 1 + j := by omega
        rwa [he] at this

theorem handleUpdateMenu_calls_when_deletes_ok (menuId : String) (ids : List String)
    (md : MenuSubmission) (ur : MutationResponse) (dr cr : Nat → MutationResponse)
    (hu : respOk ur) (hd : ∀ j, j < ids.length → respOk (dr j)) :
    (handleUpdateMenu menuId ids md ur dr cr).calls =
      Call.menuUpdate menuId md.name md.slug ::
        ids.map Call.menuItemDelete ++ (createPhase menuId cr md.items 0 []).1 := by
  have hu' : checkResponse joinMessagesOrUnknown ur = none :=
    (checkResponse_eq_none_iff _ _).mpr hu
  have hdel : deletePhase dr ids 0 = (ids.map Call.menuItemDelete, none) :=
    deletePhase_ok ids dr 0 (by simpa using hd)
  cases hc : (createPhase menuId cr md.items 0 []).2 <;>
    simp [handleUpdateMenu, hu', hdel, hc]

/-! ## C1: a later item's parent reference resolves to the earlier item's
server-issued id -/

/-- C1: when the submitted items are `[A, B]`, `A` has no parent, `B`'s
parent reference is `A`'s temporary id, the update and delete phases succeed
and `A`'s create succeeds returning the (non-empty) server id `sA`, then the
create call issued for `B` — the call right after `A`'s in the trace —
carries `parent = sA`. -/
theorem recreate_child_gets_server_id
    (menuId tA sA : String) (ids : List String) (md : MenuSubmission)
    (A B : ProcessedItem) (ur : MutationResponse) (dr cr : Nat → MutationResponse)
    (hitems : md.items = [A, B])
    (hu : respOk ur)
    (hd : ∀ j, j < ids.length → respOk (dr j))
    (hAparent : A.parent = none)
    (hAid : A.id = some tA) (htA : tA ≠ "")
    (hBparent : B.parent = some tA)
    (hc0 : respOk (cr 0))
    (hsid : (cr 0).itemId = some sA) (hsA : sA ≠ "") :
    (handleUpdateMenu menuId ids md ur dr cr).calls[1 + ids.length + 1]? =
      some (Call.menuItemCreate
        { menu := menuId, name := B.name, category := B.category
          collection := B.collection, page := B.page, parent := some sA }) := by
  rw [handleUpdateMenu_calls_when_deletes_ok menuId ids md ur dr cr hu hd, hitems]
  rw [List.getElem?_append_right (by simp)]
  have hidx2 : 1 + ids.length + 1 -
      (Call.menuUpdate menuId md.name md.slug :: ids.map Call.menuItemDelete).length = 1 := by
    simp
  rw [hidx2]
  rw [createPhase_cons_ok menuId cr A [B] 0 [] hc0]
  have hrec : recordCreatedId [] A (cr 0) = [(some tA, sA)] := by
    unfold recordCreatedId
    rw [hsid, hAid]
    simp [hsA, mapSet]
  rw [List.getElem?_cons_succ, hrec, createPhase_first_call]
  rw [hBparent]
  simp [resolveParent, mapGet, htA]

theorem recreate_child_gets_server_id_witness :
    (handleUpdateMenu "menu1" ["old1"]
        { name := "M", slug := none
          items := [{ name := "A", id := some "new-0" },
                    { name := "B", parent := some "new-0", id := some "new-1" }] }
        {} (fun _ => {}) (fun _ => { itemId := some "srvA" })).calls[1 + 1 + 1]? =
      some (Call.menuItemCreate
        { menu := "menu1", name := "B", category := none
          collection := none, page := none, parent := some "srvA" }) := by
  exact recreate_child_gets_server_id "menu1" "new-0" "srvA" ["old1"]
    { name := "M", slug := none
      items := [{ name := "A", id := some "new-0" },
                { name := "B", parent := some "new-0", id := some "new-1" }] }
    { name := "A", id := some "new-0" }
    { name := "B", parent := some "new-0", id := some "new-1" }
    {} (fun _ => {}) (fun _ => { itemId := some "srvA" })
    rfl ⟨rfl, rfl, rfl⟩ (fun _ _ => ⟨rfl, rfl, rfl⟩) rfl rfl
    (by decide) rfl ⟨rfl, rfl, rfl⟩ rfl (by decide)

/-! ## C2: a delete-phase failure aborts before any create -/

/-- C2: if the `menuUpdate` succeeds and the delete phase fails at position
`fk` (the deletes before it succeeding), the whole run issues exactly the
update call and the deletes up to and including the failing one: no
`menuItemCreate` is ever issued, nothing compensates the deletes already
performed, and the menu list is not re-fetched. -/
theorem delete_failure_no_creates
    (menuId : String) (ids : List String) (md : MenuSubmission)
    (ur : MutationResponse) (dr cr : Nat → MutationResponse) (fk : Nat)
    (hu : respOk ur) (hk : fk < ids.length)
    (hbefore : ∀ j, j < fk → respOk (dr j))
    (hfail : ¬ respOk (dr fk)) :
    (handleUpdateMenu menuId ids md ur dr cr).calls =
        Call.menuUpdate menuId md.name md.slug ::
          (ids.take (fk + 1)).map Call.menuItemDelete ∧
    (∀ inp, Call.menuItemCreate inp ∉ (handleUpdateMenu menuId ids md ur dr cr).calls) ∧
    (handleUpdateMenu menuId ids md ur dr cr).refetchCount = 0 := by
  have hu' : checkResponse joinMessagesOrUnknown ur = none :=
    (checkResponse_eq_none_iff _ _).mpr hu
  have hdel := deletePhase_fail ids dr 0 fk hk (by simpa using hbefore) (by simpa using hfail)
  cases hc : checkResponse joinMessagesOrUnknown (dr (0 + fk)) with
  | none =>
    exact absurd ((checkResponse_eq_none_iff _ _).mp (by simpa using hc)) (by simpa using hfail)
  | some v =>
    rw [hc] at hdel
    have hcalls : (handleUpdateMenu menuId ids md ur dr cr).calls =
        Call.menuUpdate menuId md.name md.slug ::
          (ids.take (fk + 1)).map Call.menuItemDelete := by
      simp [handleUpdateMenu, hu', hdel]
    have hrf : (handleUpdateMenu menuId ids md ur dr cr).refetchCount = 0 := by
      simp [handleUpdateMenu, hu', hdel]
    refine ⟨hcalls, ?_, hrf⟩
    intro inp hmem
    rw [hcalls] at hmem
    rcases List.mem_cons.mp hmem with h1 | h2
    · cases h1
    · rcases List.mem_map.mp h2 with ⟨s, _, h3⟩
      cases h3

theorem delete_failure_no_creates_witness :
    (handleUpdateMenu "m" ["i1", "i2", "i3"] { name := "M" } {}
        (fun j => if j = 1 then { error := some "boom" } else {}) (fun _ => {})).calls =
        Call.menuUpdate "m" "M" none ::
          (["i1", "i2", "i3"].take (1 + 1)).map Call.menuItemDelete ∧
    (∀ inp, Call.menuItemCreate inp ∉
      (handleUpdateMenu "m" ["i1", "i2", "i3"] { name := "M" } {}
        (fun j => if j = 1 then { error := some "boom" } else {}) (fun _ => {})).calls) ∧
    (handleUpdateMenu "m" ["i1", "i2", "i3"] { name := "M" } {}
        (fun j => if j = 1 then { error := some "boom" } else {}) (fun _ => {})).refetchCount
      = 0 :=
  delete_failure_no_creates "m" ["i1", "i2", "i3"] { name := "M" } {}
    (fun j => if j = 1 then { error := some "boom" } else {}) (fun _ => {}) 1
    ⟨rfl, rfl, rfl⟩ (by decide) (fun j hj => by interval_cases j <;> exact ⟨rfl, rfl, rfl⟩)
    (by decide)

/-! ## C5: the menu list is re-fetched exactly on success -/

theorem handleUpdateMenu_refetch_eq_one_iff (menuId : String) (ids : List String)
    (md : MenuSubmission) (ur : MutationResponse) (dr cr : Nat → MutationResponse) :
    (handleUpdateMenu menuId ids md ur dr cr).refetchCount = 1 ↔
      updateSuccess ids md ur dr cr := by
  unfold updateSuccess
  cases hu : checkResponse joinMessagesOrUnknown ur with
  | some v =>
    have hnu : ¬ respOk ur := by
      intro h
      rw [(checkResponse_eq_none_iff _ _).mpr h] at hu
      cases hu
    simp [handleUpdateMenu, hu, hnu]
  | none =>
    have hu' : respOk ur := (checkResponse_eq_none_iff _ _).mp hu
    cases hd : (deletePhase dr ids 0).2 with
    | some v =>
      have hnd : ¬ ∀ j, j < ids.length → respOk (dr j) := by
        intro hall
        have := (deletePhase_none_iff ids dr 0).mpr (by simpa using hall)
        rw [hd] at this
        cases this
      cases hdel : deletePhase dr ids 0 with
      | mk calls err =>
        rw [hdel] at hd
        simp at hd
        subst hd
        simp [handleUpdateMenu, hu, hdel, hu', hnd]
    | none =>
      have hdall : ∀ j, j < ids.length → respOk (dr j) := by
        have := (deletePhase_none_iff ids dr 0).mp hd
        simpa using this
      cases hdel : deletePhase dr ids 0 with
      | mk dcalls derr =>
        rw [hdel] at hd
        simp at hd
        subst hd
        cases hc : (createPhase menuId cr md.items 0 []).2 with
        | some v =>
          have hnc : ¬ ∀ j, j < md.items.length → respOk (cr j) := by
            intro hall
            have := (createPhase_none_iff md.items menuId cr 0 []).mpr (by simpa using hall)
            rw [hc] at this
            cases this
          simp [handleUpdateMenu, hu, hdel, hc, hu', hdall, hnc]
        | none =>
          have hcall : ∀ j, j < md.items.length → respOk (cr j) := by
            have := (createPhase_none_iff md.items menuId cr 0 []).mp hc
            simpa using this
          simp only [handleUpdateMenu, hu, hdel, hc]
          exact iff_of_true trivial ⟨hu', hdall, hcall⟩

theorem handleUpdateMenu_refetch_cases (menuId : String) (ids : List String)
    (md : MenuSubmission) (ur : MutationResponse) (dr cr : Nat → MutationResponse) :
    (handleUpdateMenu menuId ids md ur dr cr).refetchCount = 0 ∨
      (handleUpdateMenu menuId ids md ur dr cr).refetchCount = 1 := by
  cases hu : checkResponse joinMessagesOrUnknown ur with
  | some v => simp [handleUpdateMenu, hu]
  | none =>
    cases hd : (deletePhase dr ids 0).2 with
    | some v => simp [handleUpdateMenu, hu, hd]
    | none =>
      cases hc : (createPhase menuId cr md.items 0 []).2 with
      | some v => simp [handleUpdateMenu, hu, hd, hc]
      | none => simp [handleUpdateMenu, hu, hd, hc]

/-- C5: for each of the three actions, the menu-list re-fetch runs exactly
once after a fully successful run and never after a failed one. -/
theorem refetch_iff_success (md : MenuSubmission) (r : MutationResponse)
    (menuId mid : String) (ids : List String) (ur : MutationResponse)
    (dr cr : Nat → MutationResponse) :
    ((handleCreateMenu md r).refetchCount = 1 ↔ respOk r) ∧
    ((handleCreateMenu md r).refetchCount = 0 ↔ ¬ respOk r) ∧
    ((handleDeleteMenu mid r).refetchCount = 1 ↔ respOk r) ∧
    ((handleDeleteMenu mid r).refetchCount = 0 ↔ ¬ respOk r) ∧
    ((handleUpdateMenu menuId ids md ur dr cr).refetchCount = 1 ↔
      updateSuccess ids md ur dr cr) ∧
    ((handleUpdateMenu menuId ids md ur dr cr).refetchCount = 0 ↔
      ¬ updateSuccess ids md ur dr cr) := by
  have hcr : ∀ s : MenuSubmission, (handleCreateMenu s r).refetchCount = 1 ↔ respOk r := by
    intro s
    cases hc : checkResponse joinMessages r with
    | some v =>
      have hnr : ¬ respOk r := by
        intro h
        rw [(checkResponse_eq_none_iff _ _).mpr h] at hc
        cases hc
      simp [handleCreateMenu, hc, hnr]
    | none =>
      simp [handleCreateMenu, hc, (checkResponse_eq_none_iff _ _).mp hc]
  have hcr0 : ∀ s : MenuSubmission, (handleCreateMenu s r).refetchCount = 0 ↔ ¬ respOk r := by
    intro s
    cases hc : checkResponse joinMessages r with
    | some v =>
      have hnr : ¬ respOk r := by
        intro h
        rw [(checkResponse_eq_none_iff _ _).mpr h] at hc
        cases hc
      simp [handleCreateMenu, hc, hnr]
    | none =>
      simp [handleCreateMenu, hc, (checkResponse_eq_none_iff _ _).mp hc]
  have hdr : (handleDeleteMenu mid r).refetchCount = 1 ↔ respOk r := by
    cases hc : checkResponse joinMessages r with
    | some v =>
      have hnr : ¬ respOk r := by
        intro h
        rw [(checkResponse_eq_none_iff _ _).mpr h] at hc
        cases hc
      simp [handleDeleteMenu, hc, hnr]
    | none =>
      simp [handleDeleteMenu, hc, (checkResponse_eq_none_iff _ _).mp hc]
  have hdr0 : (handleDeleteMenu mid r).refetchCount = 0 ↔ ¬ respOk r := by
    cases hc : checkResponse joinMessages r with
    | some v =>
      have hnr : ¬ respOk r := by
        intro h
        rw [(checkResponse_eq_none_iff _ _).mpr h] at hc
        cases hc
      simp [handleDeleteMenu, hc, hnr]
    | none =>
      simp [handleDeleteMenu, hc, (checkResponse_eq_none_iff _ _).mp hc]
  have hur := handleUpdateMenu_refetch_eq_one_iff menuId ids md ur dr cr
  have hur0 : (handleUpdateMenu menuId ids md ur dr cr).refetchCount = 0 ↔
      ¬ updateSuccess ids md ur dr cr := by
    rcases handleUpdateMenu_refetch_cases menuId ids md ur dr cr with h0 | h1
    · rw [h0] at hur ⊢
      exact iff_of_true rfl (fun hs => absurd (hur.mpr hs) (by omega))
    · rw [h1] at hur ⊢
      exact iff_of_false (by omega) (fun hn => hn (hur.mp rfl))
  exact ⟨hcr md, hcr0 md, hdr, hdr0, hur, hur0⟩

/-! ## C6: an unresolvable parent reference silently becomes "no parent" -/

/-- C6: when an item's parent reference is a temporary id with no entry in
the running created-id map, the create call for that item is issued with no
parent, and — if that call succeeds — the item raises no error: the phase
outcome is whatever the remaining items produce. -/
theorem unresolved_parent_silently_none
    (menuId : String) (cr : Nat → MutationResponse) (k : Nat)
    (m : List (Option String × String)) (it : ProcessedItem)
    (rest : List ProcessedItem) (p : String)
    (hp : it.parent = some p)
    (hmiss : mapGet m (some p) = none) :
    (createPhase menuId cr (it :: rest) k m).1[0]? =
      some (Call.menuItemCreate
        { menu := menuId, name := it.name, category := it.category
          collection := it.collection, page := it.page, parent := none }) ∧
    (respOk (cr k) →
      (createPhase menuId cr (it :: rest) k m).2 =
        (createPhase menuId cr rest (k + 1) (recordCreatedId m it (cr k))).2) := by
  have hpar : resolveParent m it.parent = none := by
    rw [hp]
    unfold resolveParent
    by_cases hpe : p = "" <;> simp [hpe, hmiss]
  constructor
  · rw [createPhase_first_call, hpar]
  · intro hok
    rw [createPhase_cons_ok menuId cr it rest k m hok]

theorem unresolved_parent_silently_none_witness :
    (createPhase "m" (fun _ => {}) [{ name := "child", parent := some "later" }] 0 []).1[0]? =
      some (Call.menuItemCreate
        { menu := "m", name := "child", category := none
          collection := none, page := none, parent := none }) ∧
    (respOk (({} : MutationResponse)) →
      (createPhase "m" (fun _ => {}) [{ name := "child", parent := some "later" }] 0 []).2 =
        (createPhase "m" (fun _ => {}) [] 1
          (recordCreatedId [] { name := "child", parent := some "later" } {})).2) :=
  unresolved_parent_silently_none "m" (fun _ => {}) 0 []
    { name := "child", parent := some "later" } [] "later" rfl rfl

/-! ## C8: the `menuCreate` input carries exactly the four item fields -/

/-- C8: `handleCreateMenu` issues exactly one `menuCreate` call, whose items
are the submitted drafts in order, each reduced to its name, category,
collection and page — the `id` and `parent` fields of the submitted items do
not appear in the input (the input item type has no such fields). -/
theorem menuCreate_input_projection (md : MenuSubmission) (r : MutationResponse) :
    (handleCreateMenu md r).calls =
      [Call.menuCreate md.name md.slug (createMenuInputItems md.items)] ∧
    (createMenuInputItems md.items).length = md.items.length ∧
    ∀ (j : Nat) (it : ProcessedItem), md.items[j]? = some it →
      (createMenuInputItems md.items)[j]? =
        some ({ name := it.name, category := it.category
                collection := it.collection, page := it.page } : MenuCreateItemInput) := by
  refine ⟨?_, ?_, ?_⟩
  · cases hc : checkResponse joinMessages r <;> simp [handleCreateMenu, hc]
  · simp [createMenuInputItems]
  · intro j it hit
    simp [createMenuInputItems, List.getElem?_map, hit]

/-! ## C9: what the page error slot receives -/

/-- C9: every failure a handler catches fills the page error slot from the
thrown value: for an `Error` its message is stored — for server-reported
validation errors that message is the individual messages joined into one
string — and for a non-`Error` value the handler's fixed default string is
stored. -/
theorem pageError_from_thrown (md : MenuSubmission) (mid menuId : String)
    (ids : List String) (r ur : MutationResponse) (dr cr : Nat → MutationResponse)
    (msg d : String) :
    ((handleCreateMenu md r).pageError =
      (checkResponse joinMessages r).map (caughtMessage "Failed to create menu")) ∧
    ((handleDeleteMenu mid r).pageError =
      (checkResponse joinMessages r).map (caughtMessage "Failed to delete menu")) ∧
    ((handleUpdateMenu menuId ids md ur dr cr).pageError =
      (updateFirstError menuId ids md ur dr cr).map
        (caughtMessage "Failed to update menu")) ∧
    caughtMessage d (JsValue.errObj msg) = msg ∧
    caughtMessage d JsValue.nonError = d ∧
    (r.thrown = none → r.error = none → r.errors ≠ [] →
      checkResponse joinMessages r = some (JsValue.errObj (joinMessages r.errors))) := by
  refine ⟨?_, ?_, ?_, rfl, rfl, ?_⟩
  · cases hc : checkResponse joinMessages r <;> simp [handleCreateMenu, hc]
  · cases hc : checkResponse joinMessages r <;> simp [handleDeleteMenu, hc]
  · cases hu : checkResponse joinMessagesOrUnknown ur with
    | some v => simp [handleUpdateMenu, updateFirstError, hu]
    | none =>
      cases hd : (deletePhase dr ids 0).2 with
      | some v => simp [handleUpdateMenu, updateFirstError, hu, hd]
      | none =>
        cases hc : (createPhase menuId cr md.items 0 []).2 with
        | some v => simp [handleUpdateMenu, updateFirstError, hu, hd, hc]
        | none => simp [handleUpdateMenu, updateFirstError, hu, hd, hc]
  · intro hth her hes
    cases hE : r.errors with
    | nil => exact absurd hE hes
    | cons e es => simp [checkResponse, hth, her, hE]

/-! ## C10: an empty slug is omitted from the submission -/

/-- C10: `handleSubmit` passes `menuData.slug || undefined`: an empty slug
field yields no slug at all in the submission, a non-empty one is passed
through unchanged. -/
theorem slug_omitted_when_empty (menuName menuSlug : String) (s : FormState) :
    (menuSlug = "" → (handleSubmit menuName menuSlug s).slug = none) ∧
    (menuSlug ≠ "" → (handleSubmit menuName menuSlug s).slug = some menuSlug) := by
  constructor
  · intro h
    simp [handleSubmit, jsOrUndefined, h]
  · intro h
    simp [handleSubmit, jsOrUndefined, h]

end MenuManager
